import Mathlib

/-
Shallow embedding of `src/cycletls/index.go` (package `cycletls` of
jqqjj/CycleTLS).  Pure Go functions become Lean functions; the mutable
`CycleTLS` struct becomes explicit state passing; `panic` / `log.Fatal`
outcomes become an explicit `Abort` result; the external network call
`client.Do` becomes an explicit `NetOutcome` input.  Go maps are modelled
as association lists with map (update / last-writer-wins) semantics.
-/

/-- `Cookie` (declared outside `index.go`; only passed through by the core).
Modelled from the spec: "Cookie: name, value, and standard cookie
attributes; passed through to the transport profile, not interpreted by
the core" (§3). -/
structure Cookie where
  name : String
  value : String
deriving Repr, DecidableEq

/-- `Options` from `index.go` lines 13-26.  The Go `map[string]string` of
headers is modelled as an association list whose iteration order is the
list order (Go map iteration order is arbitrary, which theorems quantify
over via permutations). -/
structure Options where
  URL : String
  Method : String
  Headers : List (String × String)
  Body : String
  Ja3 : String
  UserAgent : String
  Proxy : String
  Cookies : List Cookie
  Timeout : Int
  DisableRedirect : Bool
  HeaderOrder : List String
  OrderAsProvided : Bool
deriving Repr, DecidableEq

/-- `cycleTLSRequest` from `index.go` lines 28-31. -/
structure CycleTLSRequest where
  RequestID : String
  Options : Options
deriving Repr, DecidableEq

/-- `Response` from `index.go` lines 41-46 (`Headers` is a Go map,
modelled as an association list with distinct keys). -/
structure Response where
  RequestID : String
  Status : Int
  Body : String
  Headers : List (String × String)
deriving Repr, DecidableEq

/-- The zero value `Response{}` of the Go struct: the named return value
of `dispatcher` before any assignment. -/
def zeroResponse : Response :=
  { RequestID := "", Status := 0, Body := "", Headers := [] }

/-- Model of Go `strings.ToLower` (per-character lowering; the names in
this code are ASCII). -/
def lowerStr (s : String) : String := String.mk (s.toList.map Char.toLower)

/-- Model of Go `strings.ToUpper`. -/
def upperStr (s : String) : String := String.mk (s.toList.map Char.toUpper)

/-- A character of an HTTP token, per RFC 7230 as used by Go
`net/textproto.validHeaderFieldByte` and `net/http.validMethod`
(letters, digits, and the specials; 39 is the apostrophe and 96 the
backquote character). -/
def isTokenChar (c : Char) : Bool :=
  c.isAlphanum || c = '!' || c = '#' || c = '$' || c = '%' || c = '&' ||
  c.toNat = 39 || c = '*' || c = '+' || c = '-' || c = '.' || c = '^' ||
  c = '_' || c.toNat = 96 || c = '|' || c = '~'

/-- Step of `textproto.CanonicalMIMEHeaderKey`: uppercase the first
letter and every letter following a hyphen, lowercase the rest. -/
def canonicalChars : List Char → Bool → List Char
  | [], _ => []
  | c :: rest, upper =>
      (if upper then c.toUpper else c.toLower) :: canonicalChars rest (c = '-')

/-- Model of Go `textproto.CanonicalMIMEHeaderKey` (used by
`http.Header.Set` / `Get` in the fhttp collaborator): if the key is a
valid token it is canonicalized (first letter and letters after a hyphen
uppercased, others lowercased), otherwise it is returned unchanged. -/
def canonicalMIMEHeaderKey (s : String) : String :=
  if s.toList.all isTokenChar then String.mk (canonicalChars s.toList true)
  else s

/-- Map update on an association list whose keys are already canonical:
replace the first binding of the key, else append.  This is the map
semantics of `h[key] = value` on a Go `http.Header` (one value per key,
as produced by `Header.Set`). -/
def headerSetCk : List (String × String) → String → String → List (String × String)
  | [], ck, value => [(ck, value)]
  | kv :: rest, ck, value =>
      if kv.1 = ck then (ck, value) :: rest else kv :: headerSetCk rest ck value

/-- Lookup on an association list by exact (already canonical) key. -/
def headerGetCk (hs : List (String × String)) (ck : String) : Option String :=
  (hs.find? (fun kv => kv.1 = ck)).map (fun kv => kv.2)

/-- Model of `http.Header.Set` (fhttp collaborator): canonicalize the key,
then store the single value under it. -/
def headerSet (hs : List (String × String)) (key value : String) : List (String × String) :=
  headerSetCk hs (canonicalMIMEHeaderKey key) value

/-- Model of `http.Header.Get`: canonicalize the key and look it up. -/
def headerGet (hs : List (String × String)) (key : String) : Option String :=
  headerGetCk hs (canonicalMIMEHeaderKey key)

/-- Inner loop of `index.go` lines 205-214 for one precedence key: walk
the request's headers and, for each header whose lowercased name equals
the key, append that lowercased name. -/
def matchKeys (key : String) : List (String × String) → List String
  | [] => []
  | kv :: rest =>
      if lowerStr kv.1 = key then lowerStr kv.1 :: matchKeys key rest
      else matchKeys key rest

/-- Outer loop of `index.go` lines 205-214: the `headerorderkey` slice,
built by walking the precedence list and appending the lowercased names
of the matching request headers. -/
def headerOrderKey (ord : List String) (headers : List (String × String)) : List String :=
  match ord with
  | [] => []
  | key :: rest => matchKeys key headers ++ headerOrderKey rest headers

/-- The built-in default precedence list, `index.go` lines 172-199. -/
def defaultHeaderOrder : List String :=
  ["host", "connection", "cache-control", "device-memory", "viewport-width",
   "rtt", "downlink", "ect", "sec-ch-ua", "sec-ch-ua-mobile",
   "sec-ch-ua-full-version", "sec-ch-ua-arch", "sec-ch-ua-platform",
   "sec-ch-ua-platform-version", "sec-ch-ua-model",
   "upgrade-insecure-requests", "user-agent", "accept", "sec-fetch-site",
   "sec-fetch-mode", "sec-fetch-user", "sec-fetch-dest", "referer",
   "accept-encoding", "accept-language", "cookie"]

/-- `index.go` lines 165-200: the precedence list actually used — the
caller's list lowercased entry by entry when it is non-empty, else the
built-in default list. -/
def selectHeaderOrder (options : Options) : List String :=
  if options.HeaderOrder.length > 0 then options.HeaderOrder.map (fun v => lowerStr v)
  else defaultHeaderOrder

/-- `index.go` lines 228-232: walk the caller's headers and `Set` each on
the request header map, except one whose name is (exactly) the string
\x22Content-Length\x22. -/
def applyCallerHeaders (hs : List (String × String)) : List (String × String) → List (String × String)
  | [] => hs
  | kv :: rest =>
      applyCallerHeaders (if kv.1 = "Content-Length" then hs else headerSet hs kv.1 kv.2) rest

/-- The slice of Go `url.URL` the core reads: only `.Host`. -/
structure URLInfo where
  Host : String
deriving Repr, DecidableEq

/-- The character tail after the first `://`, when there is one. -/
def afterSchemeSep : List Char → Option (List Char)
  | [] => none
  | ':' :: '/' :: '/' :: rest => some rest
  | _ :: rest => afterSchemeSep rest

/-- Model of Go `url.Parse` at the interface the core uses: parsing fails
(returns an error) when the string contains an ASCII control character,
as `net/url` rejects; otherwise `Host` is the authority between
`scheme://` and the first `/`, `?` or `#` (empty for scheme-less URLs). -/
def urlParse (rawurl : String) : Option URLInfo :=
  if rawurl.toList.any (fun c => c.toNat < 0x20 || c.toNat = 0x7f) then none
  else
    match afterSchemeSep rawurl.toList with
    | some rest =>
        some { Host := String.mk (rest.takeWhile (fun c => !(c = '/' || c = '?' || c = '#'))) }
    | none => some { Host := "" }

/-- Aborting outcomes of `processRequest`: the Go code terminates the
process at these points instead of returning an error. -/
inductive Abort where
  /-- `panic(err)` when `url.Parse` fails (`index.go` lines 139-142 and
  222-225; `http.NewRequest` re-parses the same URL as well). -/
  | panicURLParse
  /-- `log.Fatal(err)` when `newClient` fails (`index.go` lines 152-154). -/
  | fatalNewClient
  /-- `log.Fatal(err)` when `http.NewRequest` fails (`index.go` lines
  158-161), i.e. when the upper-cased method is not a valid token. -/
  | fatalNewRequest
  /-- Go runtime panic "assignment to entry in nil map" at
  `client.cacheClients[urlInfo.Host] = c` (`index.go` line 155) when the
  cache map was never initialized. -/
  | panicNilMapAssign
deriving Repr, DecidableEq

/-- Modelled from the spec: `newClient` is not under `src/`; per §4.2 it
"fails with a ClientConstructionError if the underlying transport cannot
be built (e.g., malformed proxy URL)".  Modelled as: construction
succeeds unless a non-empty proxy URL is malformed. -/
def newClientOk (proxy : String) : Bool :=
  proxy = "" || (urlParse proxy).isSome

/-- Model of the method check in Go `http.NewRequest` (fhttp
collaborator): an empty method defaults to GET, and the method must be a
non-empty HTTP token.  `processRequest` passes
`strings.ToUpper(options.Method)`. -/
def newRequestMethodOk (method : String) : Bool :=
  let m := if method = "" then "GET" else method
  m.toList.all isTokenChar

/-- Lookup in the client cache map (a Go `map[string]*http.Client`,
modelled as an association list from host to client identity). -/
def assocLookup (m : List (String × Nat)) (k : String) : Option Nat :=
  (m.find? (fun e => e.1 = k)).map (fun e => e.2)

/-- Map update for the client cache: replace the binding of the key or
append a new one. -/
def assocInsert : List (String × Nat) → String → Nat → List (String × Nat)
  | [], k, v => [(k, v)]
  | e :: rest, k, v => if e.1 = k then (k, v) :: rest else e :: assocInsert rest k v

/-- The `CycleTLS` struct (`index.go` lines 59-64) restricted to the state
the request path reads and writes: the per-host client cache
(`cacheClients`), with `none` modelling a nil Go map.  A client
(`*http.Client`) is modelled by a `Nat` identity; `nextClientId` is the
allocator that makes each constructed client a fresh handle, modelling
pointer identity.  The channels are modelled separately (`Queue`,
`workerEmit`, `poolResponses`). -/
structure CycleTLS where
  cacheClients : Option (List (String × Nat))
  nextClientId : Nat
deriving Repr, DecidableEq

/-- `http.Request` restricted to what `processRequest` sets: the method,
URL and body passed to `http.NewRequest`, the `HeaderOrderKey` and
`PHeaderOrderKey` entries, and the normal header map (canonical keys, one
value per key, as produced by `Header.Set`). -/
structure HttpRequest where
  method : String
  url : String
  body : String
  headerOrder : List String
  pheaderOrder : List String
  headers : List (String × String)
deriving Repr, DecidableEq

/-- `fullRequest` from `index.go` lines 34-38. -/
structure FullRequest where
  req : HttpRequest
  client : Nat
  options : CycleTLSRequest
deriving Repr, DecidableEq

/-- `index.go` lines 158-235: `http.NewRequest` (line 158, which fails on
an invalid upper-cased method), the header-order computation (lines
162-220), the re-parse of the URL (lines 222-225, same string as line
139 so it fails exactly when the first parse does), and the header map:
caller headers minus `Content-Length` (lines 228-232), then `Host` and
`user-agent` are `Set` last (lines 233-234). -/
def buildHttpRequest (request : CycleTLSRequest) : Except Abort HttpRequest :=
  let method := upperStr request.Options.Method
  if newRequestMethodOk method then
    let ord := selectHeaderOrder request.Options
    let hok := headerOrderKey ord request.Options.Headers
    match urlParse request.Options.URL with
    | none => Except.error Abort.panicURLParse
    | some u =>
        let h1 := applyCallerHeaders [] request.Options.Headers
        let h2 := headerSet h1 "Host" u.Host
        let h3 := headerSet h2 "user-agent" request.Options.UserAgent
        Except.ok
          { method := if method = "" then "GET" else method
            url := request.Options.URL
            body := request.Options.Body
            headerOrder := hok
            pheaderOrder := [":method", ":authority", ":scheme", ":path"]
            headers := h3 }
  else Except.error Abort.fatalNewRequest

/-- Reading the client cache, `index.go` line 143: reading a nil Go map
yields no entry. -/
def cacheLookup (st : CycleTLS) (host : String) : Option Nat :=
  match st.cacheClients with
  | none => none
  | some m => assocLookup m host

/-- `processRequest` (`index.go` lines 132-236): parse the URL (panic on
error), look the host up in the client cache, on a miss build a new
client via `newClient` (`log.Fatal` on error) and store it (runtime
panic if the cache map is nil), then build the `http.Request`. -/
def processRequest (st : CycleTLS) (request : CycleTLSRequest) :
    Except Abort (FullRequest × CycleTLS) :=
  match urlParse request.Options.URL with
  | none => Except.error Abort.panicURLParse
  | some urlInfo =>
      match cacheLookup st urlInfo.Host with
      | some c =>
          match buildHttpRequest request with
          | Except.error a => Except.error a
          | Except.ok req => Except.ok ({ req := req, client := c, options := request }, st)
      | none =>
          if newClientOk request.Options.Proxy then
            match st.cacheClients with
            | none => Except.error Abort.panicNilMapAssign
            | some m =>
                let c := st.nextClientId
                let st' : CycleTLS :=
                  { cacheClients := some (assocInsert m urlInfo.Host c)
                    nextClientId := c + 1 }
                match buildHttpRequest request with
                | Except.error a => Except.error a
                | Except.ok req => Except.ok ({ req := req, client := c, options := request }, st')
          else Except.error Abort.fatalNewClient

/-- `Init` (`index.go` lines 241-251), with the Go variadic `workers
...bool` as a list: when the worker pool is requested the returned
struct has channels but its `cacheClients` map is left nil; otherwise
only the cache map is initialized. -/
def Init (workers : List Bool) : CycleTLS :=
  match workers with
  | w :: _ =>
      if w then { cacheClients := none, nextClientId := 0 }
      else { cacheClients := some [], nextClientId := 0 }
  | [] => { cacheClients := some [], nextClientId := 0 }

/-- `Queue` (`index.go` lines 104-112), request-construction part: the
options' URL and Method fields are overwritten with the parameters and
the request is tagged with the constant id "Queued Request". -/
def queueRequest (URL : String) (options : Options) (Method : String) : CycleTLSRequest :=
  let options := { options with URL := URL, Method := Method }
  { RequestID := "Queued Request", Options := options }

/-- `Do` (`index.go` lines 115-119), request-construction part: like
`Queue` but tagged with the constant id "cycleTLSRequest". -/
def doRequest (URL : String) (options : Options) (Method : String) : CycleTLSRequest :=
  let options := { options with URL := URL, Method := Method }
  { RequestID := "cycleTLSRequest", Options := options }

/-- `Queue` (`index.go` lines 104-112): build the full request and hand
it to the worker pool (the value sent on `ReqChan`). -/
def Queue (st : CycleTLS) (URL : String) (options : Options) (Method : String) :
    Except Abort (FullRequest × CycleTLS) :=
  processRequest st (queueRequest URL options Method)

/-- The `{statusCode, message}` pair the spec's fixed error-classification
table (§4.4) produces; `parseError` itself is not under `src/`, so
`dispatcher` is parameterized over the whole table. -/
structure ParsedError where
  StatusCode : Int
  ErrorMsg : String
deriving Repr, DecidableEq

/-- Decidable equality for `Except`, needed so concrete witnesses can be
checked by `decide`. -/
instance exceptDecEq {ε α : Type} [DecidableEq ε] [DecidableEq α] : DecidableEq (Except ε α) :=
  fun x y =>
    match x, y with
    | Except.error a, Except.error b =>
        if h : a = b then isTrue (by rw [h])
        else isFalse (by intro hh; cases hh; exact h rfl)
    | Except.error _, Except.ok _ => isFalse (by intro hh; cases hh)
    | Except.ok _, Except.error _ => isFalse (by intro hh; cases hh)
    | Except.ok a, Except.ok b =>
        if h : a = b then isTrue (by rw [h])
        else isFalse (by intro hh; cases hh; exact h rfl)

/-- The outcome of the external transport call `res.client.Do(res.req)`
(`index.go` line 67), made an explicit input: either a transport-level
failure with its error text, or response headers and a status plus the
result of reading the body (`ioutil.ReadAll`, which can itself fail). -/
inductive NetOutcome where
  | failure (errMsg : String)
  | success (statusCode : Int) (respHeaders : List (String × List String))
      (bodyRead : Except String (List Nat))
deriving Repr, DecidableEq

/-- Exact-key lookup in a Go `http.Header` (multi-valued), as in
`resp.Header["Content-Encoding"]`: the value slice, nil (empty) when
absent. -/
def headerValuesCk (hs : List (String × List String)) (name : String) : List String :=
  ((hs.find? (fun nv => nv.1 = name)).map (fun nv => nv.2)).getD []

/-- Model of `strings.Join`. -/
def joinWith (sep : String) : List String → String
  | [] => ""
  | [x] => x
  | x :: rest => x ++ sep ++ joinWith sep rest

/-- `index.go` lines 88-98: flatten the response header map; `Set-Cookie`
values are joined with "/,/", for any other name each value is assigned
in turn so the last one wins (a name with an empty value slice is never
assigned). -/
def flattenHeaders (hdrs : List (String × List String)) : List (String × String) :=
  hdrs.filterMap (fun nv =>
    if nv.1 = "Set-Cookie" then some (nv.1, joinWith "/,/" nv.2)
    else
      match nv.2.getLast? with
      | some v => some (nv.1, v)
      | none => none)

/-- `dispatcher` (`index.go` lines 66-101), parameterized over the
error-classification table `pe` (`parseError`, not under `src/`) and the
body decoder `dec` (`DecompressBody`, not under `src/`; applied to the
body bytes and the `Content-Encoding` / `Content-Type` values): a
transport failure yields a synthesized response and a nil error; a
body-read failure yields the zero response and the error; success yields
the normalized response and a nil error. -/
def dispatcher (pe : String → ParsedError) (dec : List Nat → List String → List String → String)
    (outcome : NetOutcome) (res : FullRequest) : Response × Option String :=
  match outcome with
  | NetOutcome.failure errMsg =>
      let parsedError := pe errMsg
      ({ RequestID := res.options.RequestID
         Status := parsedError.StatusCode
         Body := parsedError.ErrorMsg ++ "-> \n" ++ errMsg
         Headers := [] }, none)
  | NetOutcome.success statusCode respHeaders bodyRead =>
      let encoding := headerValuesCk respHeaders "Content-Encoding"
      let content := headerValuesCk respHeaders "Content-Type"
      match bodyRead with
      | Except.error readErr => (zeroResponse, some readErr)
      | Except.ok bodyBytes =>
          let hBody := dec bodyBytes encoding content
          let headers := flattenHeaders respHeaders
          ({ RequestID := res.options.RequestID
             Status := statusCode
             Body := hBody
             Headers := headers }, none)

/-- `Do` (`index.go` lines 115-129): build the request (any abort
propagates as such), run `dispatcher` on the outcome of the network
call, and return its response and error (the error is only logged, then
returned unchanged). -/
def Do (pe : String → ParsedError) (dec : List Nat → List String → List String → String)
    (st : CycleTLS) (outcome : NetOutcome) (URL : String) (options : Options) (Method : String) :
    Except Abort (Response × Option String × CycleTLS) :=
  match processRequest st (doRequest URL options Method) with
  | Except.error a => Except.error a
  | Except.ok (res, st') =>
      let r := dispatcher pe dec outcome res
      Except.ok (r.1, r.2, st')

/-- One iteration of `worker` (`index.go` lines 269-277) for one dequeued
request, returning the responses it sends on `respChan`: the code logs a
non-nil error from `dispatcher` but sends `response` unconditionally
afterwards (there is no early `continue`). -/
def workerEmit (pe : String → ParsedError) (dec : List Nat → List String → List String → String)
    (res : FullRequest) (outcome : NetOutcome) : List Response :=
  let r := dispatcher pe dec outcome res
  [r.1]

/-- All responses the pool's workers send for a list of dequeued jobs
(each paired with the outcome of its network call); the interleaving in
which they reach `respChan` is an arbitrary permutation of this list. -/
def poolResponses (pe : String → ParsedError) (dec : List Nat → List String → List String → String)
    (jobs : List (FullRequest × NetOutcome)) : List Response :=
  jobs.flatMap (fun j => workerEmit pe dec j.1 j.2)

/-- An `Options` value with every field zero, as a Go `Options{}` literal;
concrete witnesses start from it. -/
def defaultOptions : Options :=
  { URL := "", Method := "", Headers := [], Body := "", Ja3 := "", UserAgent := "",
    Proxy := "", Cookies := [], Timeout := 0, DisableRedirect := false,
    HeaderOrder := [], OrderAsProvided := false }

/-- A sample classification table for instantiating the `parseError`
parameter in concrete witnesses. -/
def peEx : String → ParsedError :=
  fun _ => { StatusCode := 408, ErrorMsg := "Request Timeout" }

/-- A sample body decoder for instantiating the `DecompressBody`
parameter in concrete witnesses. -/
def decEx : List Nat → List String → List String → String :=
  fun _ _ _ => "body"

/-- Fallback `fullRequest` used only to extract concrete values out of
`Except` in closed statements. -/
def dummyFullRequest : FullRequest :=
  { req := { method := "", url := "", body := "", headerOrder := [],
             pheaderOrder := [], headers := [] }
    client := 0
    options := { RequestID := "", Options := defaultOptions } }

/-- A concrete pooled submission: the `fullRequest` that
`Queue("http://a.com", Options{}, "GET")` on a plain handle sends to the
worker pool, together with the handle state after it. -/
def sampleJob : FullRequest × CycleTLS :=
  (Queue (Init [false]) "http://a.com" defaultOptions "GET").toOption.getD
    (dummyFullRequest, Init [false])

/-- The spec's worked header-ordering example: headers
`{"Accept": "*/*", "User-Agent": "X"}` with order list
`["user-agent","accept"]`. -/
def c6options : Options :=
  { defaultOptions with
    Headers := [("Accept", "*/*"), ("User-Agent", "X")]
    HeaderOrder := ["user-agent", "accept"] }

/-- A request whose caller headers try to preset `Host`, `User-Agent`
and `Content-Length`. -/
def c7req : CycleTLSRequest :=
  doRequest "http://a.com"
    { defaultOptions with
      UserAgent := "real-agent"
      Headers := [("Host", "evil"), ("User-Agent", "caller"), ("Content-Length", "5")] }
    "GET"

/-- First request of the client-reuse pair: host `a.com`, timeout 5. -/
def c5req1 : CycleTLSRequest :=
  queueRequest "http://a.com" { defaultOptions with Timeout := 5 } "GET"

/-- Second request to the same host with every configurable option
changed (timeout, proxy — even a malformed one —, redirect flag,
user-agent). -/
def c5req2 : CycleTLSRequest :=
  doRequest "http://a.com/path"
    { defaultOptions with
      Timeout := 99, DisableRedirect := true, UserAgent := "other", Proxy := "http://\t" }
    "post"

/-- Second pooled submission, to a different host, after `sampleJob`. -/
def c4fr2 : FullRequest :=
  ((Queue sampleJob.2 "http://b.com" defaultOptions "POST").toOption.map Prod.fst).getD
    dummyFullRequest

/-- The two pooled submissions of the correlation counterexample. -/
def c4jobs : List FullRequest := [sampleJob.1, c4fr2]

/-- The two submissions paired with successful network outcomes. -/
def c4outs : List (FullRequest × NetOutcome) :=
  [(sampleJob.1, NetOutcome.success 200 [] (Except.ok [])),
   (c4fr2, NetOutcome.success 404 [] (Except.ok []))]

/-- The first result the pool posts for `c4outs`. -/
def c4res : Response := (poolResponses peEx decEx c4outs).headD zeroResponse

lemma matchKeys_nil_of_no_match (key : String) (hs : List (String × String))
    (h : ∀ kv ∈ hs, lowerStr kv.1 ≠ key) : matchKeys key hs = [] := by
  induction hs with
  | nil => rfl
  | cons kv t ih =>
      have hkv : lowerStr kv.1 ≠ key := h kv (List.mem_cons_self kv t)
      simp only [matchKeys, if_neg hkv]
      exact ih (fun kv' hm => h kv' (List.mem_cons_of_mem _ hm))

lemma matchKeys_eq_single (key : String) (hs : List (String × String))
    (hnd : (hs.map (fun kv => lowerStr kv.1)).Nodup) :
    matchKeys key hs = if hs.any (fun kv => lowerStr kv.1 = key) then [key] else [] := by
  induction hs with
  | nil => rfl
  | cons kv t ih =>
      rw [List.map_cons, List.nodup_cons] at hnd
      obtain ⟨hnotin, hnd'⟩ := hnd
      by_cases hk : lowerStr kv.1 = key
      · have ht : matchKeys key t = [] := by
          apply matchKeys_nil_of_no_match
          intro kv' hm heq
          exact hnotin (by rw [hk, ← heq]; exact List.mem_map_of_mem _ hm)
        simp [matchKeys, hk, ht, List.any_cons]
      · simp only [matchKeys, if_neg hk, List.any_cons, hk]
        simpa using ih hnd'

/-- Claim C6: for every header set whose names are distinct
case-insensitively and every precedence list (the caller's, lowercased,
or the built-in default when the caller's is empty), the ordered output
is exactly the precedence-list entries for which a request header
matches case-insensitively, in precedence-list order. -/
theorem c6_header_order (options : Options)
    (hnd : (options.Headers.map (fun kv => lowerStr kv.1)).Nodup) :
    headerOrderKey (selectHeaderOrder options) options.Headers =
      (selectHeaderOrder options).filter
        (fun key => options.Headers.any (fun kv => lowerStr kv.1 = key)) := by
  generalize selectHeaderOrder options = ord
  induction ord with
  | nil => rfl
  | cons key rest ih =>
      rw [headerOrderKey, List.filter_cons, matchKeys_eq_single key _ hnd, ih]
      split <;> simp

/-- Witness for C6, on the spec's own example: headers
`{"Accept": "*/*", "User-Agent": "X"}` with order list
`["user-agent","accept"]` yield `["user-agent","accept"]`. -/
theorem c6_witness :
    (c6options.Headers.map (fun kv => lowerStr kv.1)).Nodup ∧
    headerOrderKey (selectHeaderOrder c6options) c6options.Headers =
      (selectHeaderOrder c6options).filter
        (fun key => c6options.Headers.any (fun kv => lowerStr kv.1 = key)) ∧
    headerOrderKey (selectHeaderOrder c6options) c6options.Headers = ["user-agent", "accept"] :=
  ⟨by decide, c6_header_order c6options (by decide), by decide⟩

lemma matchKeys_eq_replicate (key : String) (hs : List (String × String)) :
    matchKeys key hs = List.replicate (hs.countP (fun kv => lowerStr kv.1 = key)) key := by
  induction hs with
  | nil => rfl
  | cons kv t ih =>
      by_cases h : lowerStr kv.1 = key
      · simp [matchKeys, h, List.countP_cons, ih, List.replicate_succ]
      · simp [matchKeys, h, List.countP_cons, ih]

/-- Claim C8: header ordering is deterministic — two header maps holding
the same name/value set (any two iteration orders, i.e. permutations of
one another) produce the same ordered output for the same order list. -/
theorem c8_deterministic (ord : List String) (h1 h2 : List (String × String))
    (hperm : h1.Perm h2) : headerOrderKey ord h1 = headerOrderKey ord h2 := by
  induction ord with
  | nil => rfl
  | cons key rest ih =>
      rw [headerOrderKey, headerOrderKey, ih, matchKeys_eq_replicate,
        matchKeys_eq_replicate, hperm.countP_eq]

/-- Witness for C8: the two iteration orders of the example header set
give the same ordered output. -/
theorem c8_witness :
    ([("Accept", "*/*"), ("User-Agent", "X")].Perm [("User-Agent", "X"), ("Accept", "*/*")]) ∧
    headerOrderKey ["user-agent", "accept"] [("Accept", "*/*"), ("User-Agent", "X")] =
      headerOrderKey ["user-agent", "accept"] [("User-Agent", "X"), ("Accept", "*/*")] :=
  ⟨by decide, c8_deterministic _ _ _ (by decide)⟩

lemma headerGetCk_setCk_same (hs : List (String × String)) (ck v : String) :
    headerGetCk (headerSetCk hs ck v) ck = some v := by
  induction hs with
  | nil => simp [headerSetCk, headerGetCk]
  | cons kv t ih =>
      by_cases h : kv.1 = ck
      · simp [headerSetCk, h, headerGetCk]
      · simp only [headerSetCk, if_neg h, headerGetCk, List.find?]
        simp only [headerGetCk] at ih
        simpa [h] using ih

lemma headerGetCk_setCk_other (hs : List (String × String)) (ck ck' v : String)
    (h : ck' ≠ ck) : headerGetCk (headerSetCk hs ck v) ck' = headerGetCk hs ck' := by
  induction hs with
  | nil =>
      have hne : ¬(ck = ck') := fun hh => h hh.symm
      simp [headerSetCk, headerGetCk, hne]
  | cons kv t ih =>
      by_cases hk : kv.1 = ck
      · simp only [headerSetCk, if_pos hk, headerGetCk, List.find?]
        have hne : ¬(ck = ck') := fun hh => h hh.symm
        have hne2 : ¬(kv.1 = ck') := by rw [hk]; exact hne
        simp [hne, hne2, hk]
      · simp only [headerSetCk, if_neg hk, headerGetCk, List.find?]
        simp only [headerGetCk] at ih
        by_cases hk2 : kv.1 = ck'
        · simp [hk2]
        · simpa [hk2] using ih

lemma applyCallerHeaders_cl_none (headers : List (String × String))
    (hcl : ∀ kv ∈ headers,
      canonicalMIMEHeaderKey kv.1 = "Content-Length" → kv.1 = "Content-Length") :
    ∀ hs, headerGetCk hs "Content-Length" = none →
      headerGetCk (applyCallerHeaders hs headers) "Content-Length" = none := by
  induction headers with
  | nil => intro hs h0; exact h0
  | cons kv rest ih =>
      intro hs h0
      have hcl' : ∀ kv' ∈ rest,
          canonicalMIMEHeaderKey kv'.1 = "Content-Length" → kv'.1 = "Content-Length" :=
        fun kv' hm => hcl kv' (List.mem_cons_of_mem _ hm)
      by_cases h : kv.1 = "Content-Length"
      · simp only [applyCallerHeaders, if_pos h]
        exact ih hcl' hs h0
      · simp only [applyCallerHeaders, if_neg h]
        apply ih hcl'
        rw [headerSet, headerGetCk_setCk_other]
        · exact h0
        · intro heq
          exact h (hcl kv (List.mem_cons_self kv rest) heq.symm)

lemma buildHttpRequest_eq (request : CycleTLSRequest) (u : URLInfo)
    (hu : urlParse request.Options.URL = some u)
    (hm : newRequestMethodOk (upperStr request.Options.Method) = true) :
    buildHttpRequest request = Except.ok
      { method :=
          if upperStr request.Options.Method = "" then "GET"
          else upperStr request.Options.Method
        url := request.Options.URL
        body := request.Options.Body
        headerOrder := headerOrderKey (selectHeaderOrder request.Options) request.Options.Headers
        pheaderOrder := [":method", ":authority", ":scheme", ":path"]
        headers :=
          headerSet
            (headerSet (applyCallerHeaders [] request.Options.Headers) "Host" u.Host)
            "user-agent" request.Options.UserAgent } := by
  simp [buildHttpRequest, hm, hu]

/-- Claim C7 (amended): for every built request, the `Host` header equals
the parsed target URL's authority and the `User-Agent` header equals the
user-agent from options, both overriding any caller-supplied values; a
caller-supplied header named exactly `Content-Length` is excluded, but a
differently-cased variant (e.g. `content-length`) is not — the exclusion
check on `index.go` line 229 compares the exact map key. -/
theorem c7_host_ua_override (request : CycleTLSRequest) (u : URLInfo)
    (hu : urlParse request.Options.URL = some u)
    (hm : newRequestMethodOk (upperStr request.Options.Method) = true) :
    ∃ r, buildHttpRequest request = Except.ok r ∧
      headerGet r.headers "Host" = some u.Host ∧
      headerGet r.headers "User-Agent" = some request.Options.UserAgent ∧
      ((∀ kv ∈ request.Options.Headers,
          canonicalMIMEHeaderKey kv.1 = "Content-Length" → kv.1 = "Content-Length") →
        headerGet r.headers "Content-Length" = none) := by
  refine ⟨_, buildHttpRequest_eq request u hu hm, ?_, ?_, ?_⟩
  · have h1 : canonicalMIMEHeaderKey "Host" = "Host" := by decide
    have h2 : canonicalMIMEHeaderKey "user-agent" = "User-Agent" := by decide
    have h3 : ("Host" : String) ≠ "User-Agent" := by decide
    rw [headerGet, h1, headerSet, h2, headerGetCk_setCk_other _ _ _ _ h3,
      headerSet, h1, headerGetCk_setCk_same]
  · have h1 : canonicalMIMEHeaderKey "User-Agent" = "User-Agent" := by decide
    have h2 : canonicalMIMEHeaderKey "user-agent" = "User-Agent" := by decide
    rw [headerGet, h1, headerSet, h2, headerGetCk_setCk_same]
  · intro hcl
    have h1 : canonicalMIMEHeaderKey "Content-Length" = "Content-Length" := by decide
    have h2 : canonicalMIMEHeaderKey "user-agent" = "User-Agent" := by decide
    have h3 : canonicalMIMEHeaderKey "Host" = "Host" := by decide
    have h4 : ("Content-Length" : String) ≠ "User-Agent" := by decide
    have h5 : ("Content-Length" : String) ≠ "Host" := by decide
    rw [headerGet, h1, headerSet, h2, headerGetCk_setCk_other _ _ _ _ h4,
      headerSet, h3, headerGetCk_setCk_other _ _ _ _ h5]
    exact applyCallerHeaders_cl_none _ hcl [] rfl

/-- Counterexample to C7 as stated: a caller-supplied `content-length`
header (a Content-Length header under the header map's case-insensitive
semantics) is NOT excluded — `Header.Set` canonicalizes it and the built
request carries `Content-Length: 5`. -/
theorem c7_counterexample :
    (buildHttpRequest (doRequest "http://a.com"
        { defaultOptions with Headers := [("content-length", "5")] } "GET")).toOption.map
      (fun r => headerGet r.headers "Content-Length") = some (some "5") := by decide

/-- Witness for C7: a concrete request presetting `Host`, `User-Agent`
and `Content-Length` gets the URL authority as `Host`, the options
user-agent as `User-Agent`, and no `Content-Length`. -/
theorem c7_witness :
    urlParse c7req.Options.URL = some { Host := "a.com" } ∧
    newRequestMethodOk (upperStr c7req.Options.Method) = true ∧
    (∃ r, buildHttpRequest c7req = Except.ok r ∧
      headerGet r.headers "Host" = some ({ Host := "a.com" : URLInfo }).Host ∧
      headerGet r.headers "User-Agent" = some c7req.Options.UserAgent ∧
      ((∀ kv ∈ c7req.Options.Headers,
          canonicalMIMEHeaderKey kv.1 = "Content-Length" → kv.1 = "Content-Length") →
        headerGet r.headers "Content-Length" = none)) :=
  ⟨by decide, by decide, c7_host_ua_override c7req { Host := "a.com" } (by decide) (by decide)⟩

lemma assocLookup_insert_same (m : List (String × Nat)) (k : String) (v : Nat) :
    assocLookup (assocInsert m k v) k = some v := by
  induction m with
  | nil => simp [assocInsert, assocLookup]
  | cons e t ih =>
      by_cases h : e.1 = k
      · simp [assocInsert, h, assocLookup]
      · simp only [assocInsert, if_neg h, assocLookup, List.find?]
        simp only [assocLookup] at ih
        simpa [h] using ih

lemma processRequest_hit {st : CycleTLS} {req : CycleTLSRequest} {u : URLInfo} {c : Nat}
    {r : HttpRequest} (hu : urlParse req.Options.URL = some u)
    (hc : cacheLookup st u.Host = some c) (hb : buildHttpRequest req = Except.ok r) :
    processRequest st req = Except.ok ({ req := r, client := c, options := req }, st) := by
  simp [processRequest, hu, hc, hb]

lemma processRequest_miss {st : CycleTLS} {req : CycleTLSRequest} {u : URLInfo}
    {m : List (String × Nat)} {r : HttpRequest}
    (hu : urlParse req.Options.URL = some u)
    (hc : cacheLookup st u.Host = none) (hm : st.cacheClients = some m)
    (hp : newClientOk req.Options.Proxy = true) (hb : buildHttpRequest req = Except.ok r) :
    processRequest st req = Except.ok
      ({ req := r, client := st.nextClientId, options := req },
       { cacheClients := some (assocInsert m u.Host st.nextClientId)
         nextClientId := st.nextClientId + 1 }) := by
  simp [processRequest, hu, hc, hm, hp, hb]

/-- Claim C5: two requests through the same handle targeting the same
destination host use the same client (handle equality of the `Nat`
identities modelling `*http.Client` pointers): the cache hit on the
second call returns the stored client unconditionally and leaves the
state unchanged, so the second request's changed options (timeout,
proxy, redirect flag, user-agent) are ignored. -/
theorem c5_client_reuse (st : CycleTLS) (req1 req2 : CycleTLSRequest) (u1 u2 : URLInfo)
    (m0 : List (String × Nat))
    (hu1 : urlParse req1.Options.URL = some u1)
    (hu2 : urlParse req2.Options.URL = some u2)
    (hhost : u2.Host = u1.Host)
    (hm : st.cacheClients = some m0)
    (hp : newClientOk req1.Options.Proxy = true)
    (hb1 : newRequestMethodOk (upperStr req1.Options.Method) = true)
    (hb2 : newRequestMethodOk (upperStr req2.Options.Method) = true) :
    ∃ fr1 st1 fr2 st2,
      processRequest st req1 = Except.ok (fr1, st1) ∧
      processRequest st1 req2 = Except.ok (fr2, st2) ∧
      fr2.client = fr1.client ∧ st2 = st1 := by
  obtain ⟨r1, hr1⟩ : ∃ r, buildHttpRequest req1 = Except.ok r :=
    ⟨_, buildHttpRequest_eq req1 u1 hu1 hb1⟩
  obtain ⟨r2, hr2⟩ : ∃ r, buildHttpRequest req2 = Except.ok r :=
    ⟨_, buildHttpRequest_eq req2 u2 hu2 hb2⟩
  cases hc : cacheLookup st u1.Host with
  | some c =>
      exact ⟨_, _, _, _, processRequest_hit hu1 hc hr1,
        processRequest_hit hu2 (by rw [hhost]; exact hc) hr2, rfl, rfl⟩
  | none =>
      refine ⟨_, _, _, _, processRequest_miss hu1 hc hm hp hr1,
        processRequest_hit hu2 ?_ hr2, rfl, rfl⟩
      simp [cacheLookup, hhost, assocLookup_insert_same]

/-- Witness for C5: a Queue to `a.com` with timeout 5 followed by a Do to
`a.com` with every option changed (even a malformed proxy) reuses the
first call's client. -/
theorem c5_witness :
    (Init [false]).cacheClients = some [] ∧
    (∃ fr1 st1 fr2 st2,
      processRequest (Init [false]) c5req1 = Except.ok (fr1, st1) ∧
      processRequest st1 c5req2 = Except.ok (fr2, st2) ∧
      fr2.client = fr1.client ∧ st2 = st1) :=
  ⟨by decide, c5_client_reuse (Init [false]) c5req1 c5req2 { Host := "a.com" }
    { Host := "a.com" } [] (by decide) (by decide) (by decide) (by decide) (by decide)
    (by decide) (by decide)⟩

/-- Claim C9: `Init` with the worker pool requested leaves the per-host
client cache map nil; consequently no request at all can complete
through that handle, and any request with a parsable URL and a buildable
client constructs the client and then panics assigning it into the nil
cache map. -/
theorem c9_nil_cache_panic :
    (Init [true]).cacheClients = none ∧
    (∀ (request : CycleTLSRequest) (p : FullRequest × CycleTLS),
        processRequest (Init [true]) request ≠ Except.ok p) ∧
    (∀ (request : CycleTLSRequest) (u : URLInfo),
        urlParse request.Options.URL = some u →
        newClientOk request.Options.Proxy = true →
        processRequest (Init [true]) request = Except.error Abort.panicNilMapAssign) := by
  refine ⟨rfl, ?_, ?_⟩
  · intro request p h
    cases hu : urlParse request.Options.URL with
    | none => simp [processRequest, hu] at h
    | some u =>
        have hc : cacheLookup { cacheClients := none, nextClientId := 0 } u.Host = none := rfl
        simp only [processRequest, hu, Init, hc] at h
        by_cases hp : newClientOk request.Options.Proxy
        · simp [hp, Init, hc] at h
        · simp [hp, Init, hc] at h
  · intro request u hu hp
    have hc : cacheLookup { cacheClients := none, nextClientId := 0 } u.Host = none := rfl
    simp [processRequest, hu, hc, hp, Init]

/-- Witness for C9: the first Queue request to the uncached host `a.com`
through a pool-initialized handle dies on the nil-map assignment. -/
theorem c9_witness :
    processRequest (Init [true]) (queueRequest "http://a.com" defaultOptions "GET")
      = Except.error Abort.panicNilMapAssign :=
  c9_nil_cache_panic.2.2 (queueRequest "http://a.com" defaultOptions "GET")
    { Host := "a.com" } (by decide) (by decide)

/-- Claim C2 evidence: contrary to the claim (and §7 of the spec, which
requires recoverable `InvalidURLError` / `ClientConstructionError`
results), building a request aborts the process — a malformed target URL
(control character) hits `panic(err)` at `index.go` line 141, and a
malformed proxy URL hits `log.Fatal(err)` at line 153. -/
theorem c2_abort_evidence :
    processRequest (Init [false]) (doRequest "http://a.com/\t" defaultOptions "GET")
        = Except.error Abort.panicURLParse ∧
    processRequest (Init [false])
        (doRequest "http://a.com" { defaultOptions with Proxy := "http://\t" } "GET")
        = Except.error Abort.fatalNewClient := by
  constructor <;> decide

/-- Counterexample to C3 as stated: on a dequeued request whose body read
fails, `dispatcher` returns a propagating error, yet the worker does NOT
suppress the result — it still emits one (zero-value) response, because
the send at `index.go` line 275 is unconditional. -/
theorem c3_counterexample :
    (dispatcher peEx decEx (NetOutcome.success 200 [] (Except.error "unexpected EOF"))
        sampleJob.1).2 = some "unexpected EOF" ∧
    workerEmit peEx decEx sampleJob.1 (NetOutcome.success 200 [] (Except.error "unexpected EOF"))
        = [zeroResponse] ∧
    workerEmit peEx decEx sampleJob.1 (NetOutcome.success 200 [] (Except.error "unexpected EOF"))
        ≠ ([] : List Response) := by
  refine ⟨by decide, by decide, by decide⟩

/-- Claim C3 (amended): for every dequeued request the worker emits
exactly one response — the dispatcher's response on success, and on a
propagating error it logs the error and still sends the zero-value
`Response` (no suppression). -/
theorem c3_worker_always_emits :
    (∀ pe dec res outcome, workerEmit pe dec res outcome = [(dispatcher pe dec outcome res).1]) ∧
    (∀ pe dec res s hs e,
        workerEmit pe dec res (NetOutcome.success s hs (Except.error e)) = [zeroResponse]) :=
  ⟨fun _ _ _ _ => rfl, fun _ _ _ _ _ _ => rfl⟩

lemma poolResponses_eq_map (pe : String → ParsedError)
    (dec : List Nat → List String → List String → String)
    (jobs : List (FullRequest × NetOutcome)) :
    poolResponses pe dec jobs = jobs.map (fun j => (dispatcher pe dec j.2 j.1).1) := by
  induction jobs with
  | nil => rfl
  | cons j t ih => simp [poolResponses, workerEmit] at ih ⊢; exact ih

/-- Claim C4 (amended): N pooled submissions yield exactly N results on
the result queue, in an arbitrary order (any permutation of the per-job
responses); but the correlation identifier does not match exactly one
submission — `Queue` stamps every request with the constant id
"Queued Request" (see the counterexample). -/
theorem c4_pool_result_count (pe : String → ParsedError)
    (dec : List Nat → List String → List String → String)
    (jobs : List (FullRequest × NetOutcome)) (results : List Response)
    (hperm : results.Perm (poolResponses pe dec jobs)) : results.length = jobs.length := by
  rw [hperm.length_eq, poolResponses_eq_map, List.length_map]

/-- Witness for C4: a reversed arrival order of the two concrete pooled
results is a permutation of the emitted responses and has length 2. -/
theorem c4_witness :
    ((poolResponses peEx decEx c4outs).reverse.Perm (poolResponses peEx decEx c4outs)) ∧
    (poolResponses peEx decEx c4outs).reverse.length = c4outs.length :=
  ⟨by decide, c4_pool_result_count peEx decEx c4outs _ (by decide)⟩

/-- Counterexample to C4 as stated: two distinct pooled submissions both
carry the constant correlation id "Queued Request", so the id of the
first result matches two submitted requests, not exactly one. -/
theorem c4_counterexample :
    c4jobs.length = 2 ∧ sampleJob.1 ≠ c4fr2 ∧
    (c4jobs.filter (fun fr => fr.options.RequestID = c4res.RequestID)).length = 2 := by
  refine ⟨rfl, by decide, by decide⟩

/-- Claim C10: `Queue` and `Do` overwrite the `URL` and `Method` fields of
the supplied options with their own parameters before building the
request (every other option field is passed through unchanged — the
record-update equality), so caller-preset values of those two fields
never influence the outgoing request (the last two conjuncts). -/
theorem c10_url_method_overwrite :
    (∀ (URL : String) (options : Options) (Method : String),
        (queueRequest URL options Method).RequestID = "Queued Request" ∧
        (queueRequest URL options Method).Options = { options with URL := URL, Method := Method }) ∧
    (∀ (URL : String) (options : Options) (Method : String),
        (doRequest URL options Method).RequestID = "cycleTLSRequest" ∧
        (doRequest URL options Method).Options = { options with URL := URL, Method := Method }) ∧
    (∀ (st : CycleTLS) (URL : String) (options : Options) (Method u0 m0 : String),
        Queue st URL { options with URL := u0, Method := m0 } Method
          = Queue st URL options Method) ∧
    (∀ (pe : String → ParsedError) (dec : List Nat → List String → List String → String)
        (st : CycleTLS) (outcome : NetOutcome) (URL : String) (options : Options)
        (Method u0 m0 : String),
        Do pe dec st outcome URL { options with URL := u0, Method := m0 } Method
          = Do pe dec st outcome URL options Method) :=
  ⟨fun _ _ _ => ⟨rfl, rfl⟩, fun _ _ _ => ⟨rfl, rfl⟩,
   fun _ _ _ _ _ _ => rfl, fun _ _ _ _ _ _ _ _ _ => rfl⟩

lemma processRequest_ok_exists {st : CycleTLS} {req : CycleTLSRequest} {u : URLInfo}
    {m : List (String × Nat)}
    (hu : urlParse req.Options.URL = some u) (hm : st.cacheClients = some m)
    (hp : newClientOk req.Options.Proxy = true)
    (hmeth : newRequestMethodOk (upperStr req.Options.Method) = true) :
    ∃ fr st', processRequest st req = Except.ok (fr, st') := by
  obtain ⟨r, hr⟩ : ∃ r, buildHttpRequest req = Except.ok r :=
    ⟨_, buildHttpRequest_eq req u hu hmeth⟩
  cases hc : cacheLookup st u.Host with
  | some c => exact ⟨_, _, processRequest_hit hu hc hr⟩
  | none => exact ⟨_, _, processRequest_miss hu hc hm hp hr⟩

/-- Claim C1: for every returning call to `Do`, the returned error is
non-nil only when reading the response body failed after headers were
received; a transport/network failure never yields a non-nil error —
instead `Do` returns, with a nil error, a `Response` whose status is the
classified synthesized status, whose body is the classification text
followed by "-> \n" and the raw error text, and whose header map is
empty. -/
theorem c1_do_error_contract (pe : String → ParsedError)
    (dec : List Nat → List String → List String → String)
    (st : CycleTLS) (outcome : NetOutcome) (URL : String) (options : Options)
    (Method : String) (u : URLInfo) (m : List (String × Nat))
    (hu : urlParse URL = some u)
    (hm : st.cacheClients = some m)
    (hp : newClientOk options.Proxy = true)
    (hmeth : newRequestMethodOk (upperStr Method) = true) :
    ∃ resp err st',
      Do pe dec st outcome URL options Method = Except.ok (resp, err, st') ∧
      (err.isSome →
        ∃ s hs e, outcome = NetOutcome.success s hs (Except.error e) ∧ err = some e) ∧
      (∀ msg, outcome = NetOutcome.failure msg →
        err = none ∧ resp.Status = (pe msg).StatusCode ∧
        resp.Body = (pe msg).ErrorMsg ++ "-> \n" ++ msg ∧ resp.Headers = []) := by
  have hu' : urlParse (doRequest URL options Method).Options.URL = some u := hu
  have hp' : newClientOk (doRequest URL options Method).Options.Proxy = true := hp
  have hmeth' :
      newRequestMethodOk (upperStr (doRequest URL options Method).Options.Method) = true := hmeth
  obtain ⟨fr, st', hpr⟩ := processRequest_ok_exists hu' hm hp' hmeth'
  refine ⟨(dispatcher pe dec outcome fr).1, (dispatcher pe dec outcome fr).2, st',
    by simp [Do, hpr], ?_, ?_⟩
  · cases outcome with
    | failure msg => intro hsome; simp [dispatcher] at hsome
    | success s hs br =>
        cases br with
        | error e => exact fun _ => ⟨s, hs, e, rfl, rfl⟩
        | ok bytes => intro hsome; simp [dispatcher] at hsome
  · intro msg hmsg
    subst hmsg
    exact ⟨rfl, rfl, rfl, rfl⟩

/-- Witness for C1: a concrete `Do` whose network call fails with
"dial tcp: connection refused" returns a nil error and the synthesized
response. -/
theorem c1_witness :
    urlParse "http://a.com" = some { Host := "a.com" } ∧
    (Init [false]).cacheClients = some [] ∧
    newClientOk defaultOptions.Proxy = true ∧
    newRequestMethodOk (upperStr "GET") = true ∧
    (∃ resp err st',
      Do peEx decEx (Init [false])
          (NetOutcome.failure "dial tcp: connection refused") "http://a.com"
          defaultOptions "GET" = Except.ok (resp, err, st') ∧
      (err.isSome →
        ∃ s hs e,
          NetOutcome.failure "dial tcp: connection refused"
              = NetOutcome.success s hs (Except.error e) ∧ err = some e) ∧
      (∀ msg,
        NetOutcome.failure "dial tcp: connection refused" = NetOutcome.failure msg →
        err = none ∧ resp.Status = (peEx msg).StatusCode ∧
        resp.Body = (peEx msg).ErrorMsg ++ "-> \n" ++ msg ∧ resp.Headers = [])) :=
  ⟨by decide, by decide, by decide, by decide,
   c1_do_error_contract peEx decEx (Init [false])
     (NetOutcome.failure "dial tcp: connection refused") "http://a.com" defaultOptions
     "GET" { Host := "a.com" } [] (by decide) (by decide) (by decide) (by decide)⟩
